import Mathlib

/-!
Verification of the spaced-repetition core of the 12x12-srs application.

The scheduling logic lives in `src/server/src/server.ts`:
* the review scheduler is the body of `POST /api/review/:cardStateId`
  (lines 939-999): grade parsing via `gradeSchema`, the SM-2(ish)
  repetition/interval update, the ease-factor update, the easy bonus, and
  the due-date computation;
* the due-set selector is the body of `GET /api/cards` (lines 855-936):
  a SQL query filtering by user, `due_at <= NOW()` and the optional
  `9x9` practice-set predicate, ordered by `(due_at, card id)`.

Numbers: the database stores `interval_days` and `reps` as integers and
`ease_factor` as a float; JavaScript computes on IEEE doubles.  The
embedding uses `ℤ` for the integer columns and `ℚ` for the ease factor;
every constant appearing in the arithmetic (0.1, 0.08, 0.02, 1.3, 2.5)
and every intermediate value reached by the claims is exactly
representable, and for the grade quality scores 0..3 the ease delta
`0.1 - (3-q)*(0.08+(3-q)*0.02)` evaluates in double arithmetic to the
same values (-0.32, -0.14, 0, 0.1) as in exact rational arithmetic, so
`ℚ` is a faithful model on the domain the claims quantify over.

Timestamps are milliseconds since the Unix epoch (UTC), as in a
JavaScript `Date`.
-/

namespace SRS

/-- Grade labels accepted by the review endpoint, in the order of
`gradeSchema` (server.ts line 851). -/
inductive Grade where
  | again
  | hard
  | good
  | easy
deriving DecidableEq, Repr

/-- Quality score of a grade: `const gradeMap = { again:0, hard:1, good:2, easy:3 }`
(server.ts line 943). -/
def gradeMap : Grade → ℕ
  | .again => 0
  | .hard => 1
  | .good => 2
  | .easy => 3

/-- One `srs.card_state` row (migration `001_initial.sql`): the per-(learner, card)
memory state.  `dueAt` and `lastReviewedAt` are epoch-millisecond timestamps. -/
structure MemoryState where
  dueAt : ℤ
  intervalDays : ℤ
  easeFactor : ℚ
  repetitions : ℤ
  lastReviewedAt : Option ℤ
deriving DecidableEq, Repr

/-- JavaScript `Math.round` on the (non-negative) values arising here:
round half away from zero, i.e. `⌊x + 1/2⌋`. -/
def jsRound (x : ℚ) : ℤ := ⌊x + 1 / 2⌋

/-- Milliseconds in one UTC day; every UTC day has exactly this length. -/
def msPerDay : ℤ := 86400000

/-- Model of `d.setUTCDate(d.getUTCDate() + n)` (server.ts lines 998-999):
ECMAScript reads the UTC calendar date of `d`, advances the day-of-month by
`n` (normalising across month and year boundaries) and keeps the UTC
time-of-day.  On the UTC timeline, where every day is exactly 86400000 ms,
this is addition of `n` whole days. -/
def setUTCDateAdd (t n : ℤ) : ℤ := t + n * msPerDay

/-- Repetition count after a review (server.ts lines 979-983):
`if (g < 2) reps = 0; else reps += 1`. -/
def repsAfter (s : MemoryState) (g : Grade) : ℤ :=
  if gradeMap g < 2 then 0 else s.repetitions + 1

/-- Interval after the repetition/interval update but before the easy bonus
(server.ts lines 979-987): on failure (`g < 2`) the interval resets to 1;
otherwise the learning-phase ladder gives 1 then 6, and from the third
consecutive success on it grows by `max(1, Math.round(ivl * ef))` using the
pre-review ease factor. -/
def intervalBase (s : MemoryState) (g : Grade) : ℤ :=
  if gradeMap g < 2 then 1
  else
    let reps := s.repetitions + 1
    if reps = 1 then 1
    else if reps = 2 then 6
    else max 1 (jsRound ((s.intervalDays : ℚ) * s.easeFactor))

/-- SM-2 ease-factor delta for quality score `q`
(server.ts line 992): `0.1 - (3 - q) * (0.08 + (3 - q) * 0.02)`. -/
def efDelta (q : ℚ) : ℚ := 1 / 10 - (3 - q) * (8 / 100 + (3 - q) * (2 / 100))

/-- Ease factor after a review (server.ts lines 989-993):
`ef = Math.max(1.3, ef + delta)`, applied for every grade. -/
def efAfter (s : MemoryState) (g : Grade) : ℚ :=
  max (13 / 10) (s.easeFactor + efDelta (gradeMap g))

/-- Interval after the easy bonus (server.ts line 996):
`if (g === 3) ivl = Math.round(ivl * 1.3)`. -/
def intervalAfter (s : MemoryState) (g : Grade) : ℤ :=
  if gradeMap g = 3 then jsRound ((intervalBase s g : ℚ) * (13 / 10))
  else intervalBase s g

/-- The review scheduler: the pure state transition performed by
`POST /api/review/:cardStateId` (server.ts lines 977-999) at review
timestamp `t` (the code takes `new Date()`, i.e. the review happens at the
current instant).  The due date is `t` plus the new interval in days at UTC
calendar-day granularity, and `last_reviewed_at` is stamped with `t`. -/
def applyReview (s : MemoryState) (g : Grade) (t : ℤ) : MemoryState :=
  { dueAt := setUTCDateAdd t (intervalAfter s g)
    intervalDays := intervalAfter s g
    easeFactor := efAfter s g
    repetitions := repsAfter s g
    lastReviewedAt := some t }

/-- The seed state created at enrollment (migration `001_initial.sql`,
`srs.card_state` column defaults): `interval_days 0`, `ease_factor 2.5`,
`reps 0`, `due_at NOW()`, `last_reviewed_at NULL`. -/
def seedState (t : ℤ) : MemoryState :=
  { dueAt := t
    intervalDays := 0
    easeFactor := 5 / 2
    repetitions := 0
    lastReviewedAt := none }

/-- Folding a sequence of reviews (grade and review timestamp) over a state:
the reachable states are exactly the values of this fold. -/
def applyReviews (s : MemoryState) (rs : List (Grade × ℤ)) : MemoryState :=
  rs.foldl (fun s r => applyReview s r.1 r.2) s

/-- Day count since 1970-01-01 of the Gregorian calendar date `y-m-d`
(proleptic; standard era-based conversion), used to state concrete
timestamps readably.  All divisions are by positive constants, where `ℤ`
division is floor division as required. -/
def daysFromCivil (y m d : ℤ) : ℤ :=
  let yAdj := if m ≤ 2 then y - 1 else y
  let era := yAdj / 400
  let yoe := yAdj - era * 400
  let mp := (m + 9) % 12
  let doy := (153 * mp + 2) / 5 + d - 1
  let doe := yoe * 365 + yoe / 4 - yoe / 100 + doy
  era * 146097 + doe - 719468

/-- Epoch milliseconds of the UTC instant `y-m-d hh:mi:00Z`. -/
def utcMillis (y m d hh mi : ℤ) : ℤ :=
  daysFromCivil y m d * msPerDay + (hh * 60 + mi) * 60000

/-- Error outcomes of the review endpoint (server.ts lines 939-968):
400 for an unparseable grade, 401 when no user id is attached, 400 for a
malformed card-state id, 404 when the state row is absent. -/
inductive ReviewError where
  | invalidGrade
  | unauthorized
  | invalidCardStateId
  | notFound
deriving DecidableEq, Repr

/-- Grade parsing per `gradeSchema = z.object({ grade: z.enum(['again','hard','good','easy']) })`
(server.ts line 851): the string must equal one of the four labels exactly. -/
def parseGrade (s : String) : Option Grade :=
  if s = "again" then some .again
  else if s = "hard" then some .hard
  else if s = "good" then some .good
  else if s = "easy" then some .easy
  else none

/-- Card-state id check `/^[0-9a-fA-F-]{36}$/` (server.ts line 951):
exactly 36 characters, each a hex digit or a dash. -/
def validCardStateId (s : String) : Bool :=
  s.length == 36 && s.data.all fun c =>
    (Char.ofNat 48 ≤ c && c ≤ Char.ofNat 57) ||
    (Char.ofNat 97 ≤ c && c ≤ Char.ofNat 102) ||
    (Char.ofNat 65 ≤ c && c ≤ Char.ofNat 70) ||
    c == Char.ofNat 45

/-- The review endpoint `POST /api/review/:cardStateId` (server.ts lines
939-999) as a function of its inputs: the raw grade string from the body,
the authenticated user id (`none` when absent; the code also rejects an
empty string, since `!userId` is true for `""`), the card-state id path
parameter, the stored row looked up for `(userId, cardStateId)` (`none`
when the SELECT returns no row), and the review instant `t`.  The checks
appear in source order: grade parse, auth, id shape, row lookup.  Note the
code performs no validation of the stored row itself: `ease_factor`,
`interval_days` and `reps` are fed to the update as read. -/
def reviewRoute (rawGrade : String) (userId : Option String) (cardStateId : String)
    (stored : Option MemoryState) (t : ℤ) : Except ReviewError MemoryState :=
  match parseGrade rawGrade with
  | none => .error .invalidGrade
  | some g =>
    match userId with
    | none => .error .unauthorized
    | some uid =>
      if uid = "" then .error .unauthorized
      else if validCardStateId cardStateId then
        match stored with
        | none => .error .notFound
        | some s => .ok (applyReview s g t)
      else .error .invalidCardStateId

/-- One row of the joined view queried by `GET /api/cards` (server.ts lines
901-921): `srs.card_state cs INNER JOIN srs.cards c ON c.id = cs.card_id`.
`cardId` is the `SERIAL` primary key `c.id`; `front` is the card text the
`9x9` filter inspects. -/
structure CardRow where
  cardStateId : String
  cardId : ℤ
  userId : String
  front : String
  back : String
  dueAt : ℤ
  intervalDays : ℤ
  easeFactor : ℚ
  repetitions : ℤ
deriving DecidableEq, Repr

/-- Practice-set query parameter (server.ts lines 870-880): absent or
`full` selects everything, `9x9` restricts to small multiplication facts. -/
inductive PracticeSet where
  | nineByNine
  | full
deriving DecidableEq, Repr

/-- Maximal runs of decimal digits in a character list, in order of
appearance; helper `cur` carries the current run reversed. -/
def digitRunsAux : List Char → List Char → List (List Char)
  | cur, [] => if cur = [] then [] else [cur.reverse]
  | cur, c :: cs =>
    if c.isDigit then digitRunsAux (c :: cur) cs
    else if cur = [] then digitRunsAux [] cs
    else cur.reverse :: digitRunsAux [] cs

/-- Maximal runs of decimal digits in a character list, in order. -/
def digitRuns (cs : List Char) : List (List Char) := digitRunsAux [] cs

/-- Numeric value of a digit run (the `::integer` cast of a captured group). -/
def natOfDigits (ds : List Char) : ℕ :=
  ds.foldl (fun n c => 10 * n + (c.toNat - 48)) 0

/-- Model of `regexp_match(lower(c.front), '(\d+)\D+(\d+)')` (server.ts line
891): the leftmost match captures the first two maximal digit runs of the
string (greedy `\d+` takes a whole run, `\D+` cannot cross a digit, and
`lower` does not affect digits); the match is `NULL` when fewer than two
digit runs exist. -/
def firstTwoFactors (s : String) : Option (ℕ × ℕ) :=
  match digitRuns s.data with
  | a :: b :: _ => some (natOfDigits a, natOfDigits b)
  | _ => none

/-- The practice-set predicate of the SQL `setClause` (server.ts lines
889-899): for `9x9`, both captured factors must be at most 9, with
`COALESCE(..., 100)` turning an absent match into 100, which fails the
test; for `full` there is no extra clause. -/
def passesSet : PracticeSet → String → Bool
  | .full, _ => true
  | .nineByNine, front =>
    match firstTwoFactors front with
    | some (a, b) => a ≤ 9 && b ≤ 9
    | none => false

/-- The sort key of `ORDER BY cs.due_at ASC, c.id ASC` (server.ts line
917): ascending due date, ties broken by ascending card id. -/
def rowLe (r s : CardRow) : Prop :=
  r.dueAt < s.dueAt ∨ (r.dueAt = s.dueAt ∧ r.cardId ≤ s.cardId)

instance : DecidableRel rowLe := fun r s => by
  unfold rowLe; infer_instance

instance : IsTotal CardRow rowLe where
  total r s := by
    unfold rowLe
    rcases lt_trichotomy r.dueAt s.dueAt with h | h | h
    · exact Or.inl (Or.inl h)
    · rcases le_total r.cardId s.cardId with hc | hc
      · exact Or.inl (Or.inr ⟨h, hc⟩)
      · exact Or.inr (Or.inr ⟨h.symm, hc⟩)
    · exact Or.inr (Or.inl h)

instance : IsTrans CardRow rowLe where
  trans r s u hrs hsu := by
    unfold rowLe at *
    rcases hrs with h | ⟨he, hc⟩ <;> rcases hsu with h2 | ⟨he2, hc2⟩
    · exact Or.inl (h.trans h2)
    · exact Or.inl (he2 ▸ h)
    · exact Or.inl (he ▸ h2)
    · exact Or.inr ⟨he.trans he2, hc.trans hc2⟩

/-- The due-set selector `GET /api/cards` (server.ts lines 901-921): keep
the learner's rows whose `due_at` has passed and which satisfy the
practice-set predicate, order by `(due_at, card id)` ascending, and apply
the optional `LIMIT`.  The query's `NOW()` is passed in as `now`. -/
def selectDue (db : List CardRow) (uid : String) (now : ℤ) (set : PracticeSet)
    (limit : Option ℕ) : List CardRow :=
  let rows := db.filter fun r =>
    r.userId == uid && decide (r.dueAt ≤ now) && passesSet set r.front
  let sorted := List.insertionSort rowLe rows
  match limit with
  | some k => sorted.take k
  | none => sorted

/-- Every single review leaves the ease factor at or above the floor,
whatever the input state: the update is `max(1.3, ·)`. -/
lemma applyReview_ease_floor (s : MemoryState) (g : Grade) (t : ℤ) :
    (13 : ℚ) / 10 ≤ (applyReview s g t).easeFactor :=
  le_max_left _ _

/-- Folding reviews preserves the ease floor. -/
lemma applyReviews_ease_floor (revs : List (Grade × ℤ)) (s : MemoryState)
    (h : (13 : ℚ) / 10 ≤ s.easeFactor) :
    (13 : ℚ) / 10 ≤ (applyReviews s revs).easeFactor := by
  induction revs generalizing s with
  | nil => exact h
  | cons r rs ih => exact ih (applyReview s r.1 r.2) (applyReview_ease_floor s r.1 r.2)

/-- Claim C1: a review of any state with `easeFactor ≥ 1.3` yields a state with
`easeFactor ≥ 1.3`, for every grade and timestamp; consequently every state
reachable from the enrollment seed (`easeFactor = 2.5`) under any sequence of
reviews keeps `easeFactor ≥ 1.3`. -/
theorem ease_floor_invariant :
    (∀ (s : MemoryState) (g : Grade) (t : ℤ), (13 : ℚ) / 10 ≤ s.easeFactor →
      (13 : ℚ) / 10 ≤ (applyReview s g t).easeFactor) ∧
    (∀ (t₀ : ℤ) (revs : List (Grade × ℤ)),
      (13 : ℚ) / 10 ≤ (applyReviews (seedState t₀) revs).easeFactor) := by
  constructor
  · intro s g t _
    exact applyReview_ease_floor s g t
  · intro t₀ revs
    exact applyReviews_ease_floor revs (seedState t₀) (by norm_num [seedState])

/-- Witness for C1 at a concrete input. -/
theorem ease_floor_invariant_check :
    (13 : ℚ) / 10 ≤ (seedState 0).easeFactor ∧
    (13 : ℚ) / 10 ≤ (applyReview (seedState 0) Grade.again 0).easeFactor :=
  ⟨by norm_num [seedState],
   ease_floor_invariant.1 (seedState 0) Grade.again 0 (by norm_num [seedState])⟩

/-- Claim C2: grading `again` resets the repetition count to 0 and the
interval to 1 day, for every input state and timestamp. -/
theorem again_resets_progress :
    ∀ (s : MemoryState) (t : ℤ),
      (applyReview s Grade.again t).repetitions = 0 ∧
      (applyReview s Grade.again t).intervalDays = 1 :=
  fun _ _ => ⟨rfl, rfl⟩

/-- Claim C3: from `repetitions = 0` with any `easeFactor ≥ 1.3`, two
consecutive `good` reviews produce intervals 1 then 6, independent of the
ease factor. -/
theorem learning_phase_ladder :
    ∀ (s : MemoryState) (t₁ t₂ : ℤ), s.repetitions = 0 → (13 : ℚ) / 10 ≤ s.easeFactor →
      (applyReview s Grade.good t₁).intervalDays = 1 ∧
      (applyReview (applyReview s Grade.good t₁) Grade.good t₂).intervalDays = 6 := by
  intro s t₁ t₂ h0 _hef
  constructor
  · simp [applyReview, intervalAfter, intervalBase, gradeMap, h0]
  · simp [applyReview, intervalAfter, intervalBase, repsAfter, gradeMap, h0]

/-- Witness for C3 at the enrollment seed. -/
theorem learning_phase_ladder_check :
    (applyReview (seedState 0) Grade.good 0).intervalDays = 1 ∧
    (applyReview (applyReview (seedState 0) Grade.good 0) Grade.good 0).intervalDays = 6 :=
  learning_phase_ladder (seedState 0) 0 0 rfl (by norm_num [seedState])

/-- The state of end-to-end example 3: six-day interval, default ease, two
successful repetitions behind it. -/
def exampleState3 : MemoryState :=
  { dueAt := utcMillis 2024 1 1 0 0
    intervalDays := 6
    easeFactor := 5 / 2
    repetitions := 2
    lastReviewedAt := none }

/-- Claim C4: grading `easy` on `{intervalDays 6, easeFactor 2.5, repetitions 2}`
at 2024-01-01T00:00Z gives the base interval `round(6 * 2.5) = 15`, then the
easy bonus `round(15 * 1.3) = 20`, with the next due date 2024-01-21T00:00Z. -/
theorem easy_example_end_to_end :
    intervalBase exampleState3 Grade.easy = 15 ∧
    jsRound ((6 : ℚ) * (5 / 2)) = 15 ∧
    (applyReview exampleState3 Grade.easy (utcMillis 2024 1 1 0 0)).intervalDays = 20 ∧
    jsRound ((15 : ℚ) * (13 / 10)) = 20 ∧
    (applyReview exampleState3 Grade.easy (utcMillis 2024 1 1 0 0)).dueAt =
      utcMillis 2024 1 21 0 0 := by
  have hj1 : jsRound ((6 : ℚ) * (5 / 2)) = 15 := by
    norm_num [jsRound, Int.floor_eq_iff]
  have hj2 : jsRound ((15 : ℚ) * (13 / 10)) = 20 := by
    norm_num [jsRound, Int.floor_eq_iff]
  have hj1A : jsRound (15 : ℚ) = 15 := by
    norm_num [jsRound, Int.floor_eq_iff]
  have hj2A : jsRound ((39 : ℚ) / 2) = 20 := by
    norm_num [jsRound, Int.floor_eq_iff]
  have hbase : intervalBase exampleState3 Grade.easy = 15 := by
    rw [intervalBase]
    norm_num [exampleState3, gradeMap]
    rw [hj1A]
    decide
  have hivl : intervalAfter exampleState3 Grade.easy = 20 := by
    rw [intervalAfter]
    norm_num [gradeMap, hbase]
    exact hj2A
  refine ⟨hbase, hj1, hivl, hj2, ?_⟩
  show setUTCDateAdd (utcMillis 2024 1 1 0 0) (intervalAfter exampleState3 Grade.easy) =
    utcMillis 2024 1 21 0 0
  rw [hivl]
  decide

/-- Claim C5, counterexample: on end-to-end example 1 the code leaves the
ease factor at exactly 2.5 — the SM-2 delta of the `good` grade is 0 — so the
claimed `easeFactor' ≈ 2.6` is off by a full 0.1. -/
theorem good_example_ease_counterexample :
    (applyReview (seedState (utcMillis 2024 1 1 10 0)) Grade.good
      (utcMillis 2024 1 1 10 0)).easeFactor = 5 / 2 ∧
    |(5 : ℚ) / 2 - 26 / 10| = 1 / 10 := by
  constructor
  · show efAfter (seedState (utcMillis 2024 1 1 10 0)) Grade.good = 5 / 2
    rw [efAfter]
    norm_num [efDelta, gradeMap, seedState]
  · rw [show (5 : ℚ) / 2 - 26 / 10 = -(1 / 10) by norm_num, abs_neg]
    norm_num

/-- Claim C5, amended: on `{intervalDays 0, easeFactor 2.5, repetitions 0}`,
grade `good` at 2024-01-01T10:00Z yields `repetitions' = 1`,
`intervalDays' = 1`, `dueAt' = 2024-01-02T10:00Z`, and `easeFactor' = 2.5`
exactly (unchanged, since the ease delta of `good` is 0). -/
theorem good_example_end_to_end :
    (applyReview (seedState (utcMillis 2024 1 1 10 0)) Grade.good
      (utcMillis 2024 1 1 10 0)).repetitions = 1 ∧
    (applyReview (seedState (utcMillis 2024 1 1 10 0)) Grade.good
      (utcMillis 2024 1 1 10 0)).intervalDays = 1 ∧
    (applyReview (seedState (utcMillis 2024 1 1 10 0)) Grade.good
      (utcMillis 2024 1 1 10 0)).dueAt = utcMillis 2024 1 2 10 0 ∧
    (applyReview (seedState (utcMillis 2024 1 1 10 0)) Grade.good
      (utcMillis 2024 1 1 10 0)).easeFactor = 5 / 2 := by
  refine ⟨rfl, rfl, ?_, ?_⟩
  · show setUTCDateAdd (utcMillis 2024 1 1 10 0)
      (intervalAfter (seedState (utcMillis 2024 1 1 10 0)) Grade.good) =
      utcMillis 2024 1 2 10 0
    decide
  · show efAfter (seedState (utcMillis 2024 1 1 10 0)) Grade.good = 5 / 2
    rw [efAfter]
    norm_num [efDelta, gradeMap, seedState]

/-- A state on which the easy bonus does not beat `good`: the base interval
collapses to 1 (`max(1, round(0 * 2.5))`), and `round(1 * 1.3) = 1`. -/
def tieState : MemoryState :=
  { dueAt := 0
    intervalDays := 0
    easeFactor := 5 / 2
    repetitions := 2
    lastReviewedAt := none }

/-- Claim C6, counterexample: on `{intervalDays 0, easeFactor 2.5,
repetitions 2}` the post-review repetition count is 3, yet `easy` and `good`
produce the same interval (both 1), refuting the strict inequality. -/
theorem easy_bonus_tie_counterexample :
    repsAfter tieState Grade.easy = 3 ∧
    (applyReview tieState Grade.easy 0).intervalDays = 1 ∧
    (applyReview tieState Grade.good 0).intervalDays = 1 := by
  have hj0 : jsRound (0 : ℚ) = 0 := by
    norm_num [jsRound, Int.floor_eq_iff]
  have hj13 : jsRound ((13 : ℚ) / 10) = 1 := by
    norm_num [jsRound, Int.floor_eq_iff]
  have hbase : intervalBase tieState Grade.easy = 1 := by
    rw [intervalBase]
    norm_num [tieState, gradeMap]
    rw [hj0]
    decide
  refine ⟨rfl, ?_, ?_⟩
  · show intervalAfter tieState Grade.easy = 1
    rw [intervalAfter]
    norm_num [gradeMap, hbase]
    exact hj13
  · show intervalAfter tieState Grade.good = 1
    rw [intervalAfter]
    norm_num [gradeMap]
    rw [intervalBase]
    norm_num [tieState, gradeMap]
    rw [hj0]
    decide

/-- The pre-bonus interval is the same for `good` and `easy`: both take the
success branch of the update, which does not read the grade again. -/
lemma intervalBase_good_eq_easy (s : MemoryState) :
    intervalBase s Grade.good = intervalBase s Grade.easy := rfl

/-- Every branch of the interval update yields at least one day. -/
lemma one_le_intervalBase (s : MemoryState) (g : Grade) :
    1 ≤ intervalBase s g := by
  rw [intervalBase]
  split_ifs <;> simp [le_max_left]
  split_ifs <;> simp [le_max_left]

/-- Scaling a positive integer day count by 1.3 and rounding never shrinks it. -/
lemma le_jsRound_scale (b : ℤ) (hb : 0 ≤ b) :
    b ≤ jsRound ((b : ℚ) * (13 / 10)) := by
  rw [jsRound, Int.le_floor]
  have : (0 : ℚ) ≤ (b : ℚ) := by exact_mod_cast hb
  linarith

/-- Scaling a day count of at least 2 by 1.3 and rounding strictly grows it. -/
lemma lt_jsRound_scale (b : ℤ) (hb : 2 ≤ b) :
    b < jsRound ((b : ℚ) * (13 / 10)) := by
  rw [jsRound, Int.lt_iff_add_one_le, Int.le_floor]
  have : (2 : ℚ) ≤ (b : ℚ) := by exact_mod_cast hb
  push_cast
  linarith

/-- Claim C6, amended: for identical starting states in the ease-driven
regime (post-review repetitions at least 3), grading `easy` yields an
interval at least as large as grading `good`, and strictly larger whenever
the `good` interval is at least 2 days; the strict claim fails only in the
degenerate tie where the `good` interval is 1 day, since `round(1.3) = 1`. -/
theorem easy_bonus_ge_good :
    ∀ (s : MemoryState) (t : ℤ), 2 ≤ s.repetitions →
      (applyReview s Grade.good t).intervalDays ≤ (applyReview s Grade.easy t).intervalDays ∧
      (2 ≤ (applyReview s Grade.good t).intervalDays →
        (applyReview s Grade.good t).intervalDays <
          (applyReview s Grade.easy t).intervalDays) := by
  intro s t _h2
  have hgood : (applyReview s Grade.good t).intervalDays = intervalBase s Grade.good := rfl
  have heasy : (applyReview s Grade.easy t).intervalDays =
      jsRound ((intervalBase s Grade.good : ℚ) * (13 / 10)) := rfl
  rw [hgood, heasy]
  have hb := one_le_intervalBase s Grade.good
  exact ⟨le_jsRound_scale _ (by linarith),
    fun hb2 => lt_jsRound_scale _ hb2⟩

/-- Witness for C6 (amended) at a concrete state in the ease-driven regime:
`good` gives 15 days, `easy` gives 20. -/
theorem easy_bonus_ge_good_check :
    (applyReview exampleState3 Grade.good 0).intervalDays ≤
      (applyReview exampleState3 Grade.easy 0).intervalDays ∧
    (2 ≤ (applyReview exampleState3 Grade.good 0).intervalDays →
      (applyReview exampleState3 Grade.good 0).intervalDays <
        (applyReview exampleState3 Grade.easy 0).intervalDays) :=
  easy_bonus_ge_good exampleState3 0 (by norm_num [exampleState3])

/-- Claim C7: the new due date is the review instant plus the new interval in
whole UTC days: the epoch-day number advances by exactly `intervalDays'`, the
time-of-day component (milliseconds past UTC midnight) is preserved, and the
computed interval does not depend on the review instant at all. -/
theorem due_date_arithmetic :
    ∀ (s : MemoryState) (g : Grade) (t : ℤ),
      (applyReview s g t).dueAt = t + (applyReview s g t).intervalDays * msPerDay ∧
      (applyReview s g t).dueAt % msPerDay = t % msPerDay ∧
      (applyReview s g t).dueAt / msPerDay = t / msPerDay + (applyReview s g t).intervalDays ∧
      (∀ t' : ℤ, (applyReview s g t').intervalDays = (applyReview s g t).intervalDays) := by
  intro s g t
  refine ⟨rfl, ?_, ?_, fun t' => rfl⟩
  · show (t + intervalAfter s g * msPerDay) % msPerDay = t % msPerDay
    exact Int.add_mul_emod_self
  · show (t + intervalAfter s g * msPerDay) / msPerDay = t / msPerDay + intervalAfter s g
    exact Int.add_mul_ediv_right t _ (by norm_num [msPerDay])

/-- A stored row violating the documented invariants: ease factor below the
floor and nothing else wrong with it. -/
def lowEaseState : MemoryState :=
  { dueAt := 0
    intervalDays := 5
    easeFactor := 1
    repetitions := 4
    lastReviewedAt := none }

/-- A stored row with a negative interval. -/
def negativeIntervalState : MemoryState :=
  { dueAt := 0
    intervalDays := -3
    easeFactor := 5 / 2
    repetitions := 1
    lastReviewedAt := none }

/-- Claim C8, counterexample: the endpoint never validates the stored state.
A row with `easeFactor = 1 < 1.3` — and likewise one with
`intervalDays = -3 < 0` — is processed successfully with a valid grade,
producing `ok` rather than any `InvalidArgument` failure. -/
theorem review_accepts_invalid_state_counterexample :
    lowEaseState.easeFactor < 13 / 10 ∧
    reviewRoute "good" (some "teacher") "00000000-0000-0000-0000-000000000000"
      (some lowEaseState) 0 = Except.ok (applyReview lowEaseState Grade.good 0) ∧
    negativeIntervalState.intervalDays < 0 ∧
    reviewRoute "good" (some "teacher") "00000000-0000-0000-0000-000000000000"
      (some negativeIntervalState) 0 =
      Except.ok (applyReview negativeIntervalState Grade.good 0) := by
  refine ⟨by norm_num [lowEaseState], rfl, by norm_num [negativeIntervalState], rfl⟩

/-- Claim C8, amended: with a user attached and a well-formed card-state id,
the endpoint fails with the invalid-grade error exactly when the grade is not
one of the four labels; when the grade parses and the row exists the review
always succeeds — the incoming state's `easeFactor` and `intervalDays` are
never checked. -/
theorem review_invalid_argument_semantics :
    ∀ (raw uid cid : String) (s : MemoryState) (t : ℤ),
      uid ≠ "" → validCardStateId cid = true →
      ((reviewRoute raw (some uid) cid (some s) t =
          Except.error ReviewError.invalidGrade) ↔ parseGrade raw = none) ∧
      (∀ g, parseGrade raw = some g →
        reviewRoute raw (some uid) cid (some s) t =
          Except.ok (applyReview s g t)) := by
  intro raw uid cid s t hu hcid
  constructor
  · constructor
    · intro h
      cases hg : parseGrade raw with
      | none => rfl
      | some g =>
        rw [reviewRoute, hg] at h
        simp [hu, hcid] at h
    · intro h
      rw [reviewRoute, h]
  · intro g hg
    rw [reviewRoute, hg]
    simp [hu, hcid]

/-- Witness for C8 (amended) at concrete inputs: an unrecognized grade is the
invalid-grade failure, a recognized one reviews the seed state. -/
theorem review_invalid_argument_semantics_check :
    ((reviewRoute "sideways" (some "u") "00000000-0000-0000-0000-000000000000"
        (some (seedState 0)) 0 = Except.error ReviewError.invalidGrade) ↔
      parseGrade "sideways" = none) ∧
    reviewRoute "good" (some "u") "00000000-0000-0000-0000-000000000000"
      (some (seedState 0)) 0 = Except.ok (applyReview (seedState 0) Grade.good 0) :=
  ⟨(review_invalid_argument_semantics "sideways" "u"
      "00000000-0000-0000-0000-000000000000" (seedState 0) 0
      (by decide) (by decide)).1,
   (review_invalid_argument_semantics "good" "u"
      "00000000-0000-0000-0000-000000000000" (seedState 0) 0
      (by decide) (by decide)).2 Grade.good rfl⟩

/-- Claim C9: without a limit, the selector returns exactly the rows of the
requested learner that are due at `now` and pass the practice-set filter,
sorted ascending by due date with ties broken by ascending card id; being a
pure function of its inputs, a repeated call returns the identical list. -/
theorem selectDue_ordering_and_membership :
    ∀ (db : List CardRow) (uid : String) (now : ℤ) (set : PracticeSet),
      List.Sorted rowLe (selectDue db uid now set none) ∧
      (∀ r : CardRow, r ∈ selectDue db uid now set none ↔
        r ∈ db ∧ r.userId = uid ∧ r.dueAt ≤ now ∧ passesSet set r.front = true) ∧
      selectDue db uid now set none = selectDue db uid now set none := by
  intro db uid now set
  refine ⟨?_, ?_, rfl⟩
  · exact List.sorted_insertionSort rowLe _
  · intro r
    show r ∈ List.insertionSort rowLe _ ↔ _
    rw [(List.perm_insertionSort rowLe _).mem_iff, List.mem_filter]
    simp [Bool.and_eq_true, beq_iff_eq, decide_eq_true_eq, and_assoc]

/-- Claim C10: the ease delta of the `good` grade is exactly 0, so a `good`
review returns the input ease factor unchanged whenever it is at or above
the 1.3 floor. -/
theorem good_preserves_ease :
    ∀ (s : MemoryState) (t : ℤ), (13 : ℚ) / 10 ≤ s.easeFactor →
      (applyReview s Grade.good t).easeFactor = s.easeFactor ∧ efDelta 2 = 0 := by
  intro s t h
  constructor
  · show efAfter s Grade.good = s.easeFactor
    rw [efAfter]
    have hz : efDelta ((gradeMap Grade.good : ℕ) : ℚ) = 0 := by
      norm_num [efDelta, gradeMap]
    rw [hz, add_zero]
    exact max_eq_right h
  · norm_num [efDelta]

/-- Witness for C10 at the enrollment seed. -/
theorem good_preserves_ease_check :
    (applyReview (seedState 0) Grade.good 0).easeFactor = (seedState 0).easeFactor ∧
    efDelta 2 = 0 :=
  good_preserves_ease (seedState 0) 0 (by norm_num [seedState])

end SRS
